import Mathlib

/-!
Shallow embedding of the retail POS core: the sale-transaction and
stock-movement workflow (handlers createStockMovement, createSale,
createProduct) over an explicit database state.  Monetary values are
modelled as exact rationals (the store persists numeric(10,2) columns);
stock counts and movement quantities are integers; timestamps are a
logical clock.  Fallible handlers return Except; an error result models
the rolled-back transaction (no state escapes).
-/

inductive MovementType
  | mvIn
  | mvOut
  | adjustment
deriving DecidableEq, Repr

inductive PaymentMethod
  | cash
  | card
  | digital
deriving DecidableEq, Repr

structure User where
  id : Nat
  username : String
  role : String
  is_active : Bool
deriving DecidableEq, Repr

structure Product where
  id : Nat
  name : String
  sku : String
  barcode : Option String
  category_id : Nat
  selling_price : ℚ
  cost_price : ℚ
  current_stock : Int
  min_stock_level : Int
  is_active : Bool
  created_at : Nat
  updated_at : Nat
deriving DecidableEq, Repr

structure StockMovement where
  id : Nat
  product_id : Nat
  movement_type : MovementType
  quantity : Int
  reference_id : Option Nat
  notes : Option String
  created_by : Nat
  created_at : Nat
deriving DecidableEq, Repr

structure Sale where
  id : Nat
  transaction_id : String
  cashier_id : Nat
  total_amount : ℚ
  payment_method : PaymentMethod
  payment_received : ℚ
  change_given : ℚ
  created_at : Nat
deriving DecidableEq, Repr

structure SaleItem where
  id : Nat
  sale_id : Nat
  product_id : Nat
  quantity : Int
  unit_price : ℚ
  total_price : ℚ
deriving DecidableEq, Repr

structure DB where
  users : List User
  products : List Product
  sales : List Sale
  sale_items : List SaleItem
  stock_movements : List StockMovement
  next_product_id : Nat
  next_sale_id : Nat
  next_sale_item_id : Nat
  next_movement_id : Nat
  now : Nat
deriving DecidableEq, Repr

structure CreateStockMovementInput where
  product_id : Nat
  movement_type : MovementType
  quantity : Int
  notes : Option String
  created_by : Nat
deriving DecidableEq, Repr

structure SaleItemInput where
  product_id : Nat
  quantity : Int
  unit_price : ℚ
deriving DecidableEq, Repr

structure CreateSaleInput where
  cashier_id : Nat
  payment_method : PaymentMethod
  payment_received : ℚ
  items : List SaleItemInput
deriving DecidableEq, Repr

structure CreateProductInput where
  name : String
  sku : String
  barcode : Option String
  category_id : Nat
  selling_price : ℚ
  cost_price : ℚ
  initial_stock : Int
  min_stock_level : Int
deriving DecidableEq, Repr

inductive PosError
  | cashierNotFound (cashier_id : Nat)
  | productNotFound (product_id : Nat)
  | productNotActive (product_id : Nat)
  | insufficientStock (product_id : Nat) (available requested : Int)
deriving DecidableEq, Repr

def DB.findProduct (db : DB) (pid : Nat) : Option Product :=
  db.products.find? (fun p => p.id == pid)

def DB.findUser (db : DB) (uid : Nat) : Option User :=
  db.users.find? (fun u => u.id == uid)

/-- The movement row inserted by createStockMovement: quantity exactly
as supplied by the caller, reference_id null. -/
def stockMovementRecord (db : DB) (input : CreateStockMovementInput) : StockMovement :=
  { id := db.next_movement_id
    product_id := input.product_id
    movement_type := input.movement_type
    quantity := input.quantity
    reference_id := none
    notes := input.notes
    created_by := input.created_by
    created_at := db.now }

/-- The database committed by a successful createStockMovement: the
movement row appended, the product's current_stock set to the computed
level and its updated_at touched. -/
def stockMovementResultDB (db : DB) (input : CreateStockMovementInput)
    (newStock : Int) : DB :=
  { db with
    stock_movements := db.stock_movements ++ [stockMovementRecord db input]
    products := db.products.map fun p =>
      if p.id == input.product_id then
        { p with current_stock := newStock, updated_at := db.now }
      else p
    next_movement_id := db.next_movement_id + 1
    now := db.now + 1 }

/-- Embedding of src/server/src/handlers/create_stock_movement.ts.
Looks up the product; computes the new stock level (in: add, out:
subtract guarded against going below zero, adjustment: absolute set);
inserts the movement row (reference_id null, quantity exactly as
supplied); updates the product's current_stock and updated_at. -/
def createStockMovement (db : DB) (input : CreateStockMovementInput) :
    Except PosError (DB × StockMovement) :=
  match db.findProduct input.product_id with
  | none => .error (.productNotFound input.product_id)
  | some product =>
    let currentStock := product.current_stock
    let newStockE : Except PosError Int :=
      match input.movement_type with
      | .mvIn => .ok (currentStock + input.quantity)
      | .mvOut =>
        let newStock := currentStock - input.quantity
        if newStock < 0 then
          .error (.insufficientStock input.product_id currentStock input.quantity)
        else
          .ok newStock
      | .adjustment => .ok input.quantity
    match newStockE with
    | .error e => .error e
    | .ok newStock =>
      .ok (stockMovementResultDB db input newStock, stockMovementRecord db input)

/-- The committed state of a createStockMovement request: the updated
database on success, the unchanged database on a (rolled-back) error. -/
def runStockMovement (db : DB) (input : CreateStockMovementInput) : DB :=
  match createStockMovement db input with
  | .ok (db', _) => db'
  | .error _ => db

/-- Per-line validation of src/server/src/handlers/create_sale.ts
(lines 26-43): product must exist; stock must cover the requested
quantity; product must be active — checked in exactly that order. -/
def validateSaleItem (db : DB) (item : SaleItemInput) : Option PosError :=
  match db.findProduct item.product_id with
  | none => some (.productNotFound item.product_id)
  | some product =>
    if product.current_stock < item.quantity then
      some (.insufficientStock item.product_id product.current_stock item.quantity)
    else if !product.is_active then
      some (.productNotActive item.product_id)
    else
      none

def validateSaleItems (db : DB) : List SaleItemInput → Option PosError
  | [] => none
  | item :: rest =>
    match validateSaleItem db item with
    | some e => some e
    | none => validateSaleItems db rest

def saleTotalAmount (items : List SaleItemInput) : ℚ :=
  items.foldl (fun sum item => sum + (item.quantity : ℚ) * item.unit_price) 0

/-- One iteration of the per-line loop of createSale (lines 67-100):
insert the SaleItem, decrement the product's current_stock (only that
field), insert the 'out' StockMovement with the negated quantity,
reference_id = sale id, and a note naming the transaction id. -/
def processSaleItem (saleId : Nat) (txId : String) (cashierId : Nat)
    (db : DB) (item : SaleItemInput) : DB :=
  let totalPrice : ℚ := (item.quantity : ℚ) * item.unit_price
  let saleItem : SaleItem :=
    { id := db.next_sale_item_id
      sale_id := saleId
      product_id := item.product_id
      quantity := item.quantity
      unit_price := item.unit_price
      total_price := totalPrice }
  let db1 : DB :=
    { db with
      sale_items := db.sale_items ++ [saleItem]
      next_sale_item_id := db.next_sale_item_id + 1 }
  let db2 : DB :=
    { db1 with
      products := db1.products.map fun p =>
        if p.id == item.product_id then
          { p with current_stock := p.current_stock - item.quantity }
        else p }
  let movement : StockMovement :=
    { id := db2.next_movement_id
      product_id := item.product_id
      movement_type := .mvOut
      quantity := - item.quantity
      reference_id := some saleId
      notes := some ("Sale transaction " ++ txId)
      created_by := cashierId
      created_at := db2.now }
  { db2 with
    stock_movements := db2.stock_movements ++ [movement]
    next_movement_id := db2.next_movement_id + 1 }

/-- The movement row a sale line appends: type out, negated quantity,
reference to the sale, note naming the transaction. -/
def saleMovementRecord (saleId : Nat) (txId : String) (cashierId : Nat)
    (db : DB) (item : SaleItemInput) : StockMovement :=
  { id := db.next_movement_id
    product_id := item.product_id
    movement_type := .mvOut
    quantity := - item.quantity
    reference_id := some saleId
    notes := some ("Sale transaction " ++ txId)
    created_by := cashierId
    created_at := db.now }

def processSaleItems (saleId : Nat) (txId : String) (cashierId : Nat) :
    DB → List SaleItemInput → DB
  | db, [] => db
  | db, item :: rest =>
    processSaleItems saleId txId cashierId
      (processSaleItem saleId txId cashierId db item) rest

/-- The Sale header built by createSale: total is the sum of the line
totals, change is clamped at zero, the transaction identifier is a
function of the clock. -/
def saleRecord (db : DB) (input : CreateSaleInput) : Sale :=
  { id := db.next_sale_id
    transaction_id := "TXN-" ++ toString db.now
    cashier_id := input.cashier_id
    total_amount := saleTotalAmount input.items
    payment_method := input.payment_method
    payment_received := input.payment_received
    change_given := max 0 (input.payment_received - saleTotalAmount input.items)
    created_at := db.now }

/-- The database after inserting the sale header, before the per-line
loop runs. -/
def saleHeaderDB (db : DB) (input : CreateSaleInput) : DB :=
  { db with
    sales := db.sales ++ [saleRecord db input]
    next_sale_id := db.next_sale_id + 1 }

/-- The database committed by a successful createSale: the header, then
one SaleItem, one stock decrement and one movement per line. -/
def saleResultDB (db : DB) (input : CreateSaleInput) : DB :=
  let db2 := processSaleItems (saleRecord db input).id
    (saleRecord db input).transaction_id input.cashier_id
    (saleHeaderDB db input) input.items
  { db2 with now := db2.now + 1 }

/-- Embedding of src/server/src/handlers/create_sale.ts.  Verifies the
cashier, validates every line up front, computes the total and change,
inserts the sale header, then runs the per-line loop inside one
transaction. -/
def createSale (db : DB) (input : CreateSaleInput) :
    Except PosError (DB × Sale) :=
  match db.findUser input.cashier_id with
  | none => .error (.cashierNotFound input.cashier_id)
  | some _ =>
    match validateSaleItems db input.items with
    | some e => .error e
    | none => .ok (saleResultDB db input, saleRecord db input)

/-- The committed state of a createSale request: the updated database on
success, the unchanged database on a (rolled-back) error. -/
def runSale (db : DB) (input : CreateSaleInput) : DB :=
  match createSale db input with
  | .ok (db', _) => db'
  | .error _ => db

/-- Embedding of the createProduct implementation (src/unnamed/part_012):
inserts the product (is_active defaults to true per the table schema),
and, when initial_stock > 0, one 'in' StockMovement of the initial stock
with note "Initial stock" and the hardcoded system actor id 1. -/
def createProduct (db : DB) (input : CreateProductInput) : DB × Product :=
  let product : Product :=
    { id := db.next_product_id
      name := input.name
      sku := input.sku
      barcode := input.barcode
      category_id := input.category_id
      selling_price := input.selling_price
      cost_price := input.cost_price
      current_stock := input.initial_stock
      min_stock_level := input.min_stock_level
      is_active := true
      created_at := db.now
      updated_at := db.now }
  let db1 : DB :=
    { db with
      products := db.products ++ [product]
      next_product_id := db.next_product_id + 1 }
  let db2 : DB :=
    if input.initial_stock > 0 then
      let movement : StockMovement :=
        { id := db1.next_movement_id
          product_id := product.id
          movement_type := .mvIn
          quantity := input.initial_stock
          reference_id := none
          notes := some "Initial stock"
          created_by := 1
          created_at := db1.now }
      { db1 with
        stock_movements := db1.stock_movements ++ [movement]
        next_movement_id := db1.next_movement_id + 1 }
    else
      db1
  ({ db2 with now := db2.now + 1 }, product)

/-! Ghost functions used only in specification statements. -/

/-- The movement ledger of one product, in insertion order. -/
def movementsOf (db : DB) (pid : Nat) : List StockMovement :=
  db.stock_movements.filter (fun m => m.product_id == pid)

/-- Signed effect of one ledger record on a running stock value: an in
record adds its quantity, an out record subtracts the absolute value of
its stored quantity (direct out movements store the positive requested
quantity, sale-driven out movements store the negated sold quantity),
and an adjustment record resets the value to its quantity. -/
def replayStep (s : Int) (m : StockMovement) : Int :=
  match m.movement_type with
  | .mvIn => s + m.quantity
  | .mvOut => s - m.quantity.natAbs
  | .adjustment => m.quantity

/-- Replay a ledger from a starting value. -/
def replayStock (s : Int) (l : List StockMovement) : Int :=
  l.foldl replayStep s

/-- Every product's stored stock value agrees with the replay of its
movement ledger from zero (product creation itself emits the initial in
record, so the replay starts at zero). -/
def StockConsistent (db : DB) : Prop :=
  ∀ p ∈ db.products, p.current_stock = replayStock 0 (movementsOf db p.id)

/-- Serial ids handed out so far are below the allocator; together with
freshness of new ids this keeps ledgers of distinct products disjoint. -/
def ProductIdsBounded (db : DB) : Prop :=
  (∀ p ∈ db.products, p.id < db.next_product_id) ∧
  (∀ m ∈ db.stock_movements, m.product_id < db.next_product_id)

def CoreInv (db : DB) : Prop :=
  ProductIdsBounded db ∧ StockConsistent db

/-- The zod input contract of createStockMovementInputSchema together
with the caller-side sign convention of the spec: in and out quantities
are positive, an adjustment quantity is a nonnegative absolute target. -/
def ValidStockMovementInput (input : CreateStockMovementInput) : Prop :=
  match input.movement_type with
  | .mvIn => 0 < input.quantity
  | .mvOut => 0 < input.quantity
  | .adjustment => 0 ≤ input.quantity

/-- The zod input contract of createSaleInputSchema: positive payment,
every line with positive integer quantity and positive unit price. -/
def ValidSaleInput (input : CreateSaleInput) : Prop :=
  0 < input.payment_received ∧
  ∀ item ∈ input.items, 0 < item.quantity ∧ 0 < item.unit_price

/-- States reachable from an initial catalog (any staff accounts, no
products yet) by successful core operations on contract-valid inputs. -/
inductive Reachable : DB → Prop
  | init (users : List User) :
      Reachable
        { users := users, products := [], sales := [], sale_items := [],
          stock_movements := [], next_product_id := 1, next_sale_id := 1,
          next_sale_item_id := 1, next_movement_id := 1, now := 0 }
  | product {db db' : DB} {input : CreateProductInput} {p : Product} :
      Reachable db → 0 ≤ input.initial_stock →
      createProduct db input = (db', p) → Reachable db'
  | movement {db db' : DB} {input : CreateStockMovementInput} {m : StockMovement} :
      Reachable db → ValidStockMovementInput input →
      createStockMovement db input = .ok (db', m) → Reachable db'
  | sale {db db' : DB} {input : CreateSaleInput} {s : Sale} :
      Reachable db → ValidSaleInput input →
      createSale db input = .ok (db', s) → Reachable db'

/-- Total quantity of a product sold across the lines of one request. -/
def soldQty (items : List SaleItemInput) (pid : Nat) : Int :=
  ((items.filter (fun i => i.product_id == pid)).map SaleItemInput.quantity).sum

/-- The SaleItem rows appended by the per-line loop, in line order,
with serially allocated ids. -/
def saleItemsFor (sid : Nat) (startId : Nat) : List SaleItemInput → List SaleItem
  | [] => []
  | i :: rest =>
    { id := startId
      sale_id := sid
      product_id := i.product_id
      quantity := i.quantity
      unit_price := i.unit_price
      total_price := (i.quantity : ℚ) * i.unit_price } :: saleItemsFor sid (startId + 1) rest

/-- The StockMovement rows appended by the per-line loop, in line order,
with serially allocated ids: type out, negated quantity, reference to
the sale, and a note naming the transaction. -/
def movementsFor (sid : Nat) (tx : String) (cid : Nat) (startId : Nat) (now : Nat) :
    List SaleItemInput → List StockMovement
  | [] => []
  | i :: rest =>
    { id := startId
      product_id := i.product_id
      movement_type := .mvOut
      quantity := - i.quantity
      reference_id := some sid
      notes := some ("Sale transaction " ++ tx)
      created_by := cid
      created_at := now } :: movementsFor sid tx cid (startId + 1) now rest

/-- A sale line the spec's validation step must reject: unknown product,
inactive product, or quantity above the product's current stock. -/
def LineDefective (db : DB) (item : SaleItemInput) : Prop :=
  db.findProduct item.product_id = none ∨
  ∃ p, db.findProduct item.product_id = some p ∧
    (p.is_active = false ∨ p.current_stock < item.quantity)

/-- The returned error names a defect actually present in the request:
the reported product is genuinely unknown, genuinely inactive, or
genuinely short of the requested quantity. -/
def SaleErrorMatches (db : DB) (items : List SaleItemInput) : PosError → Prop
  | .productNotFound pid =>
      db.findProduct pid = none ∧ ∃ item ∈ items, item.product_id = pid
  | .productNotActive pid =>
      (∃ p, db.findProduct pid = some p ∧ p.is_active = false) ∧
      ∃ item ∈ items, item.product_id = pid
  | .insufficientStock pid available requested =>
      (∃ p, db.findProduct pid = some p ∧ p.current_stock = available) ∧
      available < requested ∧
      ∃ item ∈ items, item.product_id = pid ∧ item.quantity = requested
  | .cashierNotFound _ => False

/-! Concrete fixtures used by witnesses and counterexamples. -/

def user1 : User :=
  { id := 1, username := "cashier1", role := "cashier", is_active := true }

def prodA : Product :=
  { id := 1, name := "A", sku := "SKU-A", barcode := none, category_id := 1,
    selling_price := 10, cost_price := 5, current_stock := 100, min_stock_level := 10,
    is_active := true, created_at := 0, updated_at := 0 }

def prodB : Product :=
  { id := 2, name := "B", sku := "SKU-B", barcode := none, category_id := 1,
    selling_price := 20, cost_price := 10, current_stock := 50, min_stock_level := 5,
    is_active := true, created_at := 0, updated_at := 0 }

def prodC : Product :=
  { id := 3, name := "C", sku := "SKU-C", barcode := none, category_id := 1,
    selling_price := 8, cost_price := 4, current_stock := 5, min_stock_level := 0,
    is_active := false, created_at := 0, updated_at := 0 }

def baseDB : DB :=
  { users := [user1], products := [prodA, prodB, prodC], sales := [], sale_items := [],
    stock_movements := [], next_product_id := 4, next_sale_id := 1,
    next_sale_item_id := 1, next_movement_id := 1, now := 7 }

def initDB : DB :=
  { users := [user1], products := [], sales := [], sale_items := [],
    stock_movements := [], next_product_id := 1, next_sale_id := 1,
    next_sale_item_id := 1, next_movement_id := 1, now := 0 }

def prodInputA : CreateProductInput :=
  { name := "A", sku := "SKU-A", barcode := none, category_id := 1,
    selling_price := 10, cost_price := 5, initial_stock := 100, min_stock_level := 0 }

/-- initDB after creating product A with 100 units of initial stock. -/
def dbP : DB := (createProduct initDB prodInputA).1

/-- A sale request with two lines for the same product, each passing the
pre-state stock check on its own, together overselling it. -/
def dupSaleInput : CreateSaleInput :=
  { cashier_id := 1, payment_method := .cash, payment_received := 1200,
    items := [⟨1, 60, 10⟩, ⟨1, 60, 10⟩] }

def emptyCartInput : CreateSaleInput :=
  { cashier_id := 1, payment_method := .cash, payment_received := 9, items := [] }

def negAdjustInput : CreateStockMovementInput :=
  { product_id := 1, movement_type := .adjustment, quantity := -5,
    notes := none, created_by := 1 }

def zeroInInput : CreateStockMovementInput :=
  { product_id := 1, movement_type := .mvIn, quantity := 0,
    notes := none, created_by := 1 }

def underpaySale : CreateSaleInput :=
  { cashier_id := 1, payment_method := .cash, payment_received := 9,
    items := [⟨1, 2, 10⟩] }

def twoLineSale : CreateSaleInput :=
  { cashier_id := 1, payment_method := .cash, payment_received := 100,
    items := [⟨1, 5, 10⟩, ⟨2, 3, 20⟩] }

def prodInput0 : CreateProductInput :=
  { name := "Z", sku := "SKU-Z", barcode := none, category_id := 1,
    selling_price := 3, cost_price := 2, initial_stock := 0, min_stock_level := 0 }

def isOkE {ε α : Type _} : Except ε α → Bool
  | .ok _ => true
  | .error _ => false

/-! General lemmas about product lookup after an id-preserving pointwise
update of the catalog. -/

theorem find?_map_update (l : List Product) (pid : Nat) (g : Product → Product)
    (hg : ∀ p, (g p).id = p.id) :
    (l.map fun p => if p.id == pid then g p else p).find? (fun p => p.id == pid) =
      (l.find? (fun p => p.id == pid)).map g := by
  induction l with
  | nil => rfl
  | cons p t ih =>
    have hid : (if p.id == pid then g p else p).id = p.id := by
      by_cases hc : (p.id == pid) = true <;> simp [hc, hg]
    have hfp : ((if p.id == pid then g p else p).id == pid) = (p.id == pid) := by
      rw [hid]
    cases h : (p.id == pid) with
    | true =>
      rw [List.map_cons, List.find?_cons, List.find?_cons, hfp, h]
      simp
    | false =>
      rw [List.map_cons, List.find?_cons, List.find?_cons, hfp, h]
      exact ih

theorem find?_map_update_ne (l : List Product) (pid qid : Nat) (g : Product → Product)
    (hg : ∀ p, (g p).id = p.id) (hne : pid ≠ qid) :
    (l.map fun p => if p.id == pid then g p else p).find? (fun p => p.id == qid) =
      l.find? (fun p => p.id == qid) := by
  induction l with
  | nil => rfl
  | cons p t ih =>
    have hid : (if p.id == pid then g p else p).id = p.id := by
      by_cases hc : (p.id == pid) = true <;> simp [hc, hg]
    have hfp : ((if p.id == pid then g p else p).id == qid) = (p.id == qid) := by
      rw [hid]
    cases h : (p.id == qid) with
    | true =>
      have hp : p.id = qid := by simpa using h
      have hcond : (p.id == pid) = false := by
        simp only [beq_eq_false_iff_ne, ne_eq, hp]
        exact fun hc => hne hc.symm
      rw [List.map_cons, List.find?_cons, List.find?_cons, hfp, h]
      simp [hcond]
    | false =>
      rw [List.map_cons, List.find?_cons, List.find?_cons, hfp, h]
      exact ih

/-! Unfolding lemmas for createStockMovement. -/

theorem createStockMovement_in_eq (db : DB) (input : CreateStockMovementInput)
    (product : Product) (hfind : db.findProduct input.product_id = some product)
    (ht : input.movement_type = .mvIn) :
    createStockMovement db input =
      .ok (stockMovementResultDB db input (product.current_stock + input.quantity),
        stockMovementRecord db input) := by
  simp only [createStockMovement, hfind, ht]

theorem createStockMovement_out_eq (db : DB) (input : CreateStockMovementInput)
    (product : Product) (hfind : db.findProduct input.product_id = some product)
    (ht : input.movement_type = .mvOut)
    (hq : ¬ product.current_stock - input.quantity < 0) :
    createStockMovement db input =
      .ok (stockMovementResultDB db input (product.current_stock - input.quantity),
        stockMovementRecord db input) := by
  simp only [createStockMovement, hfind, ht, if_neg hq]

theorem createStockMovement_adjust_eq (db : DB) (input : CreateStockMovementInput)
    (product : Product) (hfind : db.findProduct input.product_id = some product)
    (ht : input.movement_type = .adjustment) :
    createStockMovement db input =
      .ok (stockMovementResultDB db input input.quantity,
        stockMovementRecord db input) := by
  simp only [createStockMovement, hfind, ht]

theorem findProduct_stockMovementResultDB_self (db : DB)
    (input : CreateStockMovementInput) (newStock : Int) (product : Product)
    (hfind : db.findProduct input.product_id = some product) :
    (stockMovementResultDB db input newStock).findProduct input.product_id =
      some { product with current_stock := newStock, updated_at := db.now } := by
  show (db.products.map fun p =>
      if p.id == input.product_id then
        { p with current_stock := newStock, updated_at := db.now }
      else p).find? (fun p => p.id == input.product_id) = _
  rw [find?_map_update db.products input.product_id
    (fun p => { p with current_stock := newStock, updated_at := db.now }) (fun p => rfl)]
  rw [show db.products.find? (fun p => p.id == input.product_id) = some product from hfind]
  rfl

theorem findProduct_stockMovementResultDB_ne (db : DB)
    (input : CreateStockMovementInput) (newStock : Int) (qid : Nat)
    (hne : input.product_id ≠ qid) :
    (stockMovementResultDB db input newStock).findProduct qid =
      db.findProduct qid := by
  show (db.products.map fun p =>
      if p.id == input.product_id then
        { p with current_stock := newStock, updated_at := db.now }
      else p).find? (fun p => p.id == qid) = _
  rw [find?_map_update_ne db.products input.product_id qid
    (fun p => { p with current_stock := newStock, updated_at := db.now }) (fun p => rfl) hne]
  rfl

/-- C3: for an existing product with current stock S, createStockMovement
with type in and quantity q sets the stock to S + q; with type out and
q ≤ S it sets the stock to S − q (q = S succeeds and yields 0); with
type adjustment it sets the stock to exactly q (absolute, not delta). -/
theorem createStockMovement_stock_transition (db : DB)
    (input : CreateStockMovementInput) (product : Product)
    (hfind : db.findProduct input.product_id = some product) :
    (input.movement_type = .mvIn →
      ∃ db' m, createStockMovement db input = .ok (db', m) ∧
        (db'.findProduct input.product_id).map Product.current_stock =
          some (product.current_stock + input.quantity)) ∧
    (input.movement_type = .mvOut → input.quantity ≤ product.current_stock →
      ∃ db' m, createStockMovement db input = .ok (db', m) ∧
        (db'.findProduct input.product_id).map Product.current_stock =
          some (product.current_stock - input.quantity)) ∧
    (input.movement_type = .adjustment →
      ∃ db' m, createStockMovement db input = .ok (db', m) ∧
        (db'.findProduct input.product_id).map Product.current_stock =
          some input.quantity) := by
  refine ⟨fun ht => ?_, fun ht hq => ?_, fun ht => ?_⟩
  · refine ⟨_, _, createStockMovement_in_eq db input product hfind ht, ?_⟩
    rw [findProduct_stockMovementResultDB_self db input _ product hfind]
    rfl
  · refine ⟨_, _, createStockMovement_out_eq db input product hfind ht (by omega), ?_⟩
    rw [findProduct_stockMovementResultDB_self db input _ product hfind]
    rfl
  · refine ⟨_, _, createStockMovement_adjust_eq db input product hfind ht, ?_⟩
    rw [findProduct_stockMovementResultDB_self db input _ product hfind]
    rfl

/-- C3 witness: concrete in, boundary out (quantity = stock), and
adjustment movements on the fixture catalog. -/
theorem createStockMovement_stock_transition_witness :
    (∃ db' m, createStockMovement baseDB ⟨1, .mvIn, 50, none, 1⟩ = .ok (db', m) ∧
      (db'.findProduct 1).map Product.current_stock = some 150) ∧
    (∃ db' m, createStockMovement baseDB ⟨2, .mvOut, 50, none, 1⟩ = .ok (db', m) ∧
      (db'.findProduct 2).map Product.current_stock = some 0) ∧
    (∃ db' m, createStockMovement baseDB ⟨2, .adjustment, 75, none, 1⟩ = .ok (db', m) ∧
      (db'.findProduct 2).map Product.current_stock = some 75) :=
  ⟨(createStockMovement_stock_transition baseDB ⟨1, .mvIn, 50, none, 1⟩ prodA rfl).1 rfl,
   (createStockMovement_stock_transition baseDB ⟨2, .mvOut, 50, none, 1⟩ prodB rfl).2.1
     rfl (by decide),
   (createStockMovement_stock_transition baseDB ⟨2, .adjustment, 75, none, 1⟩ prodB rfl).2.2
     rfl⟩

/-- C4: createStockMovement fails with ProductNotFound for an unknown
product id, and with InsufficientStock for an out movement whose
quantity exceeds the current stock; in both cases no movement row is
written and no stock value changes (committed state unchanged). -/
theorem createStockMovement_failure_atomic (db : DB)
    (input : CreateStockMovementInput) :
    (db.findProduct input.product_id = none →
      createStockMovement db input = .error (.productNotFound input.product_id) ∧
      runStockMovement db input = db) ∧
    (∀ product, db.findProduct input.product_id = some product →
      input.movement_type = .mvOut → product.current_stock < input.quantity →
      createStockMovement db input =
        .error (.insufficientStock input.product_id product.current_stock
          input.quantity) ∧
      runStockMovement db input = db) := by
  constructor
  · intro h
    have he : createStockMovement db input =
        .error (.productNotFound input.product_id) := by
      simp only [createStockMovement, h]
    exact ⟨he, by simp only [runStockMovement, he]⟩
  · intro product h ht hq
    have he : createStockMovement db input =
        .error (.insufficientStock input.product_id product.current_stock
          input.quantity) := by
      simp only [createStockMovement, h, ht,
        if_pos (show product.current_stock - input.quantity < 0 by omega)]
    exact ⟨he, by simp only [runStockMovement, he]⟩

/-- C4 witness: an unknown product id and an oversized out movement on
the fixture catalog, both leaving the database untouched. -/
theorem createStockMovement_failure_atomic_witness :
    (createStockMovement baseDB ⟨99, .mvIn, 5, none, 1⟩ =
        .error (.productNotFound 99) ∧
      runStockMovement baseDB ⟨99, .mvIn, 5, none, 1⟩ = baseDB) ∧
    (createStockMovement baseDB ⟨1, .mvOut, 150, none, 1⟩ =
        .error (.insufficientStock 1 100 150) ∧
      runStockMovement baseDB ⟨1, .mvOut, 150, none, 1⟩ = baseDB) :=
  ⟨(createStockMovement_failure_atomic baseDB ⟨99, .mvIn, 5, none, 1⟩).1 rfl,
   (createStockMovement_failure_atomic baseDB ⟨1, .mvOut, 150, none, 1⟩).2
     prodA rfl rfl (by decide)⟩

/-- C7 counterexample: contrary to the claim that invalid quantities are
rejected with InvalidInput, an adjustment with quantity −5 and an in
movement with quantity 0 both succeed; the adjustment persists a
negative stock value and records a movement row. -/
theorem stockMovement_invalid_quantity_cex :
    isOkE (createStockMovement baseDB negAdjustInput) = true ∧
    isOkE (createStockMovement baseDB zeroInInput) = true ∧
    ((runStockMovement baseDB negAdjustInput).findProduct 1).map
      Product.current_stock = some (-5) ∧
    (runStockMovement baseDB negAdjustInput).stock_movements.length = 1 := by
  decide

/-- C7 amended: createStockMovement performs no quantity-sign
validation.  For an existing product, an in movement with non-positive
quantity succeeds and records the supplied quantity; an out movement
with non-positive quantity succeeds whenever the subtraction stays
nonnegative; an adjustment with negative quantity succeeds and persists
that negative value as the stock. -/
theorem stockMovement_no_quantity_validation (db : DB)
    (input : CreateStockMovementInput) (product : Product)
    (hfind : db.findProduct input.product_id = some product) :
    (input.movement_type = .mvIn → input.quantity ≤ 0 →
      ∃ db' m, createStockMovement db input = .ok (db', m) ∧
        m.quantity = input.quantity ∧
        db'.stock_movements = db.stock_movements ++ [m] ∧
        (db'.findProduct input.product_id).map Product.current_stock =
          some (product.current_stock + input.quantity)) ∧
    (input.movement_type = .mvOut → input.quantity ≤ 0 →
      0 ≤ product.current_stock - input.quantity →
      ∃ db' m, createStockMovement db input = .ok (db', m) ∧
        m.quantity = input.quantity ∧
        (db'.findProduct input.product_id).map Product.current_stock =
          some (product.current_stock - input.quantity)) ∧
    (input.movement_type = .adjustment → input.quantity < 0 →
      ∃ db' m, createStockMovement db input = .ok (db', m) ∧
        m.quantity = input.quantity ∧
        (db'.findProduct input.product_id).map Product.current_stock =
          some input.quantity) := by
  refine ⟨fun ht _ => ?_, fun ht _ hq => ?_, fun ht _ => ?_⟩
  · refine ⟨_, _, createStockMovement_in_eq db input product hfind ht, rfl, rfl, ?_⟩
    rw [findProduct_stockMovementResultDB_self db input _ product hfind]
    rfl
  · refine ⟨_, _, createStockMovement_out_eq db input product hfind ht (by omega),
      rfl, ?_⟩
    rw [findProduct_stockMovementResultDB_self db input _ product hfind]
    rfl
  · refine ⟨_, _, createStockMovement_adjust_eq db input product hfind ht, rfl, ?_⟩
    rw [findProduct_stockMovementResultDB_self db input _ product hfind]
    rfl

/-- C7 amended witness: zero-quantity in, negative-quantity out, and
negative-quantity adjustment all pass on the fixture catalog. -/
theorem stockMovement_no_quantity_validation_witness :
    (∃ db' m, createStockMovement baseDB zeroInInput = .ok (db', m) ∧
      m.quantity = 0 ∧
      db'.stock_movements = baseDB.stock_movements ++ [m] ∧
      (db'.findProduct 1).map Product.current_stock = some 100) ∧
    (∃ db' m, createStockMovement baseDB ⟨1, .mvOut, -3, none, 1⟩ = .ok (db', m) ∧
      m.quantity = -3 ∧
      (db'.findProduct 1).map Product.current_stock = some 103) ∧
    (∃ db' m, createStockMovement baseDB negAdjustInput = .ok (db', m) ∧
      m.quantity = -5 ∧
      (db'.findProduct 1).map Product.current_stock = some (-5)) :=
  ⟨(stockMovement_no_quantity_validation baseDB zeroInInput prodA rfl).1
      rfl (by decide),
   (stockMovement_no_quantity_validation baseDB ⟨1, .mvOut, -3, none, 1⟩ prodA rfl).2.1
      rfl (by decide) (by decide),
   (stockMovement_no_quantity_validation baseDB negAdjustInput prodA rfl).2.2
      rfl (by decide)⟩

/-- C9: createProduct persists the product with current_stock equal to
initial_stock; with initial_stock = 0 it writes no StockMovement row,
and with initial_stock > 0 it writes exactly one in movement whose
quantity is the initial stock. -/
theorem createProduct_initial_stock_movement (db : DB) (input : CreateProductInput) :
    (createProduct db input).2.current_stock = input.initial_stock ∧
    (createProduct db input).1.products = db.products ++ [(createProduct db input).2] ∧
    (input.initial_stock = 0 →
      (createProduct db input).1.stock_movements = db.stock_movements) ∧
    (0 < input.initial_stock →
      (createProduct db input).1.stock_movements = db.stock_movements ++
        [{ id := db.next_movement_id
           product_id := (createProduct db input).2.id
           movement_type := .mvIn
           quantity := input.initial_stock
           reference_id := none
           notes := some "Initial stock"
           created_by := 1
           created_at := db.now }]) := by
  refine ⟨rfl, ?_, fun h0 => ?_, fun hpos => ?_⟩
  · by_cases h : input.initial_stock > 0 <;> simp [createProduct, h]
  · simp [createProduct, h0]
  · simp [createProduct, hpos]

/-- C9 witness: creating a product with initial stock 0 writes no
movement; with initial stock 100 it writes one in movement of 100. -/
theorem createProduct_initial_stock_movement_witness :
    (createProduct initDB prodInput0).1.stock_movements = initDB.stock_movements ∧
    (createProduct initDB prodInputA).1.stock_movements = initDB.stock_movements ++
      [{ id := initDB.next_movement_id
         product_id := (createProduct initDB prodInputA).2.id
         movement_type := .mvIn
         quantity := 100
         reference_id := none
         notes := some "Initial stock"
         created_by := 1
         created_at := initDB.now }] :=
  ⟨(createProduct_initial_stock_movement initDB prodInput0).2.2.1 rfl,
   (createProduct_initial_stock_movement initDB prodInputA).2.2.2 (by decide)⟩

/-- C8 counterexample: contrary to the claim that an empty line list is
rejected with InvalidInput, createSale on an empty cart succeeds and
persists a Sale header (with no items and no movements). -/
theorem createSale_empty_cart_cex :
    isOkE (createSale baseDB emptyCartInput) = true ∧
    (runSale baseDB emptyCartInput).sales.length = 1 ∧
    (runSale baseDB emptyCartInput).sale_items.length = 0 ∧
    (runSale baseDB emptyCartInput).stock_movements.length = 0 := by
  decide

/-- C8 amended: a sale request with an empty line list is not rejected;
createSale succeeds, persisting a Sale header with total_amount 0 and
change_given equal to the (positive) payment received, and creating no
SaleItems and no StockMovements. -/
theorem createSale_empty_cart (db : DB) (input : CreateSaleInput) (u : User)
    (hu : db.findUser input.cashier_id = some u) (hitems : input.items = []) :
    ∃ db' sale, createSale db input = .ok (db', sale) ∧
      sale.total_amount = 0 ∧
      sale.change_given = max 0 input.payment_received ∧
      db'.sales = db.sales ++ [sale] ∧
      db'.sale_items = db.sale_items ∧
      db'.stock_movements = db.stock_movements := by
  have h : createSale db input = .ok (saleResultDB db input, saleRecord db input) := by
    unfold createSale
    rw [hu, hitems]
    rfl
  refine ⟨_, _, h, ?_, ?_, ?_, ?_, ?_⟩
  · show saleTotalAmount input.items = 0
    rw [hitems]
    rfl
  · show max 0 (input.payment_received - saleTotalAmount input.items) =
      max 0 input.payment_received
    rw [hitems]
    simp [saleTotalAmount]
  · show (saleResultDB db input).sales = db.sales ++ [saleRecord db input]
    simp [saleResultDB, hitems, processSaleItems, saleHeaderDB]
  · show (saleResultDB db input).sale_items = db.sale_items
    simp [saleResultDB, hitems, processSaleItems, saleHeaderDB]
  · show (saleResultDB db input).stock_movements = db.stock_movements
    simp [saleResultDB, hitems, processSaleItems, saleHeaderDB]

/-- C8 amended witness: the empty-cart request on the fixture catalog. -/
theorem createSale_empty_cart_witness :
    ∃ db' sale, createSale baseDB emptyCartInput = .ok (db', sale) ∧
      sale.total_amount = 0 ∧
      sale.change_given = max 0 emptyCartInput.payment_received ∧
      db'.sales = baseDB.sales ++ [sale] ∧
      db'.sale_items = baseDB.sale_items ∧
      db'.stock_movements = baseDB.stock_movements :=
  createSale_empty_cart baseDB emptyCartInput user1 rfl rfl

/-! Lemmas about the per-line loop of createSale. -/

theorem processSaleItem_findProduct_self (sid : Nat) (tx : String) (cid : Nat)
    (db : DB) (i : SaleItemInput) :
    (processSaleItem sid tx cid db i).findProduct i.product_id =
      (db.findProduct i.product_id).map fun p =>
        { p with current_stock := p.current_stock - i.quantity } := by
  show (db.products.map fun p =>
      if p.id == i.product_id then
        { p with current_stock := p.current_stock - i.quantity }
      else p).find? (fun p => p.id == i.product_id) = _
  rw [find?_map_update db.products i.product_id
    (fun p => { p with current_stock := p.current_stock - i.quantity }) (fun p => rfl)]
  rfl

theorem processSaleItem_findProduct_ne (sid : Nat) (tx : String) (cid : Nat)
    (db : DB) (i : SaleItemInput) (qid : Nat) (hne : i.product_id ≠ qid) :
    (processSaleItem sid tx cid db i).findProduct qid = db.findProduct qid := by
  show (db.products.map fun p =>
      if p.id == i.product_id then
        { p with current_stock := p.current_stock - i.quantity }
      else p).find? (fun p => p.id == qid) = _
  rw [find?_map_update_ne db.products i.product_id qid
    (fun p => { p with current_stock := p.current_stock - i.quantity }) (fun p => rfl) hne]
  rfl

theorem soldQty_cons (i : SaleItemInput) (rest : List SaleItemInput) (pid : Nat) :
    soldQty (i :: rest) pid =
      (if i.product_id == pid then i.quantity else 0) + soldQty rest pid := by
  by_cases h : (i.product_id == pid) = true <;>
    simp [soldQty, List.filter_cons, h]

theorem processSaleItems_findProduct (sid : Nat) (tx : String) (cid : Nat)
    (items : List SaleItemInput) : ∀ (db : DB) (pid : Nat),
    (processSaleItems sid tx cid db items).findProduct pid =
      (db.findProduct pid).map fun p =>
        { p with current_stock := p.current_stock - soldQty items pid } := by
  induction items with
  | nil =>
    intro db pid
    show db.findProduct pid = _
    cases db.findProduct pid with
    | none => rfl
    | some p => simp [soldQty]
  | cons i rest ih =>
    intro db pid
    show (processSaleItems sid tx cid (processSaleItem sid tx cid db i) rest).findProduct
        pid = _
    rw [ih, soldQty_cons]
    by_cases hc : (i.product_id == pid) = true
    · have hp : i.product_id = pid := by simpa using hc
      subst hp
      rw [processSaleItem_findProduct_self]
      cases db.findProduct i.product_id with
      | none => rfl
      | some p => simp [Int.sub_sub]
    · rw [processSaleItem_findProduct_ne sid tx cid db i pid (by simpa using hc)]
      cases db.findProduct pid with
      | none => rfl
      | some p => simp [hc]

theorem processSaleItems_sale_items (sid : Nat) (tx : String) (cid : Nat)
    (items : List SaleItemInput) : ∀ db : DB,
    (processSaleItems sid tx cid db items).sale_items =
      db.sale_items ++ saleItemsFor sid db.next_sale_item_id items := by
  induction items with
  | nil => intro db; simp [processSaleItems, saleItemsFor]
  | cons i rest ih =>
    intro db
    show (processSaleItems sid tx cid (processSaleItem sid tx cid db i) rest).sale_items = _
    rw [ih]
    show (db.sale_items ++
        [{ id := db.next_sale_item_id
           sale_id := sid
           product_id := i.product_id
           quantity := i.quantity
           unit_price := i.unit_price
           total_price := (i.quantity : ℚ) * i.unit_price }]) ++
        saleItemsFor sid (db.next_sale_item_id + 1) rest =
      db.sale_items ++ saleItemsFor sid db.next_sale_item_id (i :: rest)
    rw [List.append_assoc]
    rfl

theorem processSaleItems_stock_movements (sid : Nat) (tx : String) (cid : Nat)
    (items : List SaleItemInput) : ∀ db : DB,
    (processSaleItems sid tx cid db items).stock_movements =
      db.stock_movements ++ movementsFor sid tx cid db.next_movement_id db.now items := by
  induction items with
  | nil => intro db; simp [processSaleItems, movementsFor]
  | cons i rest ih =>
    intro db
    show (processSaleItems sid tx cid (processSaleItem sid tx cid db i) rest).stock_movements = _
    rw [ih]
    show (db.stock_movements ++
        [{ id := db.next_movement_id
           product_id := i.product_id
           movement_type := .mvOut
           quantity := - i.quantity
           reference_id := some sid
           notes := some ("Sale transaction " ++ tx)
           created_by := cid
           created_at := db.now }]) ++
        movementsFor sid tx cid (db.next_movement_id + 1) db.now rest =
      db.stock_movements ++ movementsFor sid tx cid db.next_movement_id db.now (i :: rest)
    rw [List.append_assoc]
    rfl

theorem processSaleItems_frame (sid : Nat) (tx : String) (cid : Nat)
    (items : List SaleItemInput) : ∀ db : DB,
    (processSaleItems sid tx cid db items).users = db.users ∧
    (processSaleItems sid tx cid db items).sales = db.sales ∧
    (processSaleItems sid tx cid db items).next_product_id = db.next_product_id ∧
    (processSaleItems sid tx cid db items).now = db.now := by
  induction items with
  | nil => intro db; exact ⟨rfl, rfl, rfl, rfl⟩
  | cons i rest ih => intro db; exact ih (processSaleItem sid tx cid db i)

theorem saleItemsFor_length (sid : Nat) (items : List SaleItemInput) :
    ∀ startId, (saleItemsFor sid startId items).length = items.length := by
  induction items with
  | nil => intro s; rfl
  | cons i rest ih =>
    intro s
    show (saleItemsFor sid (s + 1) rest).length + 1 = rest.length + 1
    rw [ih]

theorem movementsFor_length (sid : Nat) (tx : String) (cid : Nat) (now : Nat)
    (items : List SaleItemInput) :
    ∀ startId, (movementsFor sid tx cid startId now items).length = items.length := by
  induction items with
  | nil => intro s; rfl
  | cons i rest ih =>
    intro s
    show (movementsFor sid tx cid (s + 1) now rest).length + 1 = rest.length + 1
    rw [ih]

theorem saleItemsFor_spec (sid : Nat) (items : List SaleItemInput) :
    ∀ startId, List.Forall₂ (fun (i : SaleItemInput) (si : SaleItem) =>
      si.sale_id = sid ∧ si.product_id = i.product_id ∧ si.quantity = i.quantity ∧
      si.unit_price = i.unit_price ∧ si.total_price = (i.quantity : ℚ) * i.unit_price)
      items (saleItemsFor sid startId items) := by
  induction items with
  | nil => intro s; exact List.Forall₂.nil
  | cons i rest ih =>
    intro s
    exact List.Forall₂.cons ⟨rfl, rfl, rfl, rfl, rfl⟩ (ih (s + 1))

theorem movementsFor_spec (sid : Nat) (tx : String) (cid : Nat) (now : Nat)
    (items : List SaleItemInput) :
    ∀ startId, List.Forall₂ (fun (i : SaleItemInput) (m : StockMovement) =>
      m.product_id = i.product_id ∧ m.movement_type = .mvOut ∧
      m.quantity = - i.quantity ∧ m.reference_id = some sid ∧
      m.notes = some ("Sale transaction " ++ tx) ∧ m.created_by = cid)
      items (movementsFor sid tx cid startId now items) := by
  induction items with
  | nil => intro s; exact List.Forall₂.nil
  | cons i rest ih =>
    intro s
    exact List.Forall₂.cons ⟨rfl, rfl, rfl, rfl, rfl, rfl⟩ (ih (s + 1))

/-! Projections of the committed createSale state. -/

theorem saleResultDB_sale_items (db : DB) (input : CreateSaleInput) :
    (saleResultDB db input).sale_items =
      db.sale_items ++ saleItemsFor db.next_sale_id db.next_sale_item_id input.items := by
  show (processSaleItems (saleRecord db input).id (saleRecord db input).transaction_id
      input.cashier_id (saleHeaderDB db input) input.items).sale_items = _
  rw [processSaleItems_sale_items]
  rfl

theorem saleResultDB_stock_movements (db : DB) (input : CreateSaleInput) :
    (saleResultDB db input).stock_movements =
      db.stock_movements ++ movementsFor db.next_sale_id ("TXN-" ++ toString db.now)
        input.cashier_id db.next_movement_id db.now input.items := by
  show (processSaleItems (saleRecord db input).id (saleRecord db input).transaction_id
      input.cashier_id (saleHeaderDB db input) input.items).stock_movements = _
  rw [processSaleItems_stock_movements]
  rfl

theorem saleResultDB_findProduct (db : DB) (input : CreateSaleInput) (pid : Nat) :
    (saleResultDB db input).findProduct pid =
      (db.findProduct pid).map fun p =>
        { p with current_stock := p.current_stock - soldQty input.items pid } := by
  show (processSaleItems (saleRecord db input).id (saleRecord db input).transaction_id
      input.cashier_id (saleHeaderDB db input) input.items).findProduct pid = _
  rw [processSaleItems_findProduct]
  rfl

theorem saleResultDB_users (db : DB) (input : CreateSaleInput) :
    (saleResultDB db input).users = db.users := by
  show (processSaleItems (saleRecord db input).id (saleRecord db input).transaction_id
      input.cashier_id (saleHeaderDB db input) input.items).users = _
  rw [(processSaleItems_frame _ _ _ _ _).1]
  rfl

theorem saleResultDB_sales (db : DB) (input : CreateSaleInput) :
    (saleResultDB db input).sales = db.sales ++ [saleRecord db input] := by
  show (processSaleItems (saleRecord db input).id (saleRecord db input).transaction_id
      input.cashier_id (saleHeaderDB db input) input.items).sales = _
  rw [(processSaleItems_frame _ _ _ _ _).2.1]
  rfl

/-! Unfolding and inversion lemmas for createSale. -/

theorem createSale_ok_eq (db : DB) (input : CreateSaleInput) (u : User)
    (hu : db.findUser input.cashier_id = some u)
    (hv : validateSaleItems db input.items = none) :
    createSale db input = .ok (saleResultDB db input, saleRecord db input) := by
  unfold createSale
  rw [hu, hv]

theorem createSale_error_eq (db : DB) (input : CreateSaleInput) (u : User)
    (e : PosError) (hu : db.findUser input.cashier_id = some u)
    (hv : validateSaleItems db input.items = some e) :
    createSale db input = .error e := by
  unfold createSale
  rw [hu, hv]

theorem createSale_ok_inv (db : DB) (input : CreateSaleInput) (db' : DB) (sale : Sale)
    (h : createSale db input = .ok (db', sale)) :
    db' = saleResultDB db input ∧ sale = saleRecord db input := by
  unfold createSale at h
  cases hu : db.findUser input.cashier_id with
  | none => rw [hu] at h; exact Except.noConfusion h
  | some u =>
    rw [hu] at h
    cases hv : validateSaleItems db input.items with
    | some e => rw [hv] at h; exact Except.noConfusion h
    | none =>
      rw [hv] at h
      have h3 := Except.ok.inj h
      exact ⟨(congrArg Prod.fst h3).symm, (congrArg Prod.snd h3).symm⟩

theorem createStockMovement_ok_inv (db : DB) (input : CreateStockMovementInput)
    (db' : DB) (m : StockMovement)
    (h : createStockMovement db input = .ok (db', m)) :
    ∃ newStock, db' = stockMovementResultDB db input newStock ∧
      m = stockMovementRecord db input ∧
      ∃ product, db.findProduct input.product_id = some product := by
  unfold createStockMovement at h
  cases hf : db.findProduct input.product_id with
  | none => rw [hf] at h; exact Except.noConfusion h
  | some product =>
    rw [hf] at h
    cases ht : input.movement_type with
    | mvIn =>
      rw [ht] at h
      have h3 := Except.ok.inj h
      exact ⟨product.current_stock + input.quantity,
        (congrArg Prod.fst h3).symm, (congrArg Prod.snd h3).symm, product, rfl⟩
    | mvOut =>
      rw [ht] at h
      have h2 : (match (if product.current_stock - input.quantity < 0 then
            (Except.error (PosError.insufficientStock input.product_id
              product.current_stock input.quantity) : Except PosError Int)
          else .ok (product.current_stock - input.quantity)) with
        | .error e => (Except.error e : Except PosError (DB × StockMovement))
        | .ok newStock =>
            .ok (stockMovementResultDB db input newStock,
              stockMovementRecord db input)) = .ok (db', m) := h
      by_cases hc : product.current_stock - input.quantity < 0
      · rw [if_pos hc] at h2; exact Except.noConfusion h2
      · rw [if_neg hc] at h2
        have h3 := Except.ok.inj h2
        exact ⟨product.current_stock - input.quantity,
          (congrArg Prod.fst h3).symm, (congrArg Prod.snd h3).symm, product, rfl⟩
    | adjustment =>
      rw [ht] at h
      have h3 := Except.ok.inj h
      exact ⟨input.quantity,
        (congrArg Prod.fst h3).symm, (congrArg Prod.snd h3).symm, product, rfl⟩

/-! Validation lemmas. -/

theorem validateSaleItem_none_of (db : DB) (item : SaleItemInput)
    (h : ∃ p, db.findProduct item.product_id = some p ∧ p.is_active = true ∧
      item.quantity ≤ p.current_stock) :
    validateSaleItem db item = none := by
  obtain ⟨p, hp, ha, hq⟩ := h
  simp only [validateSaleItem, hp]
  rw [if_neg (by omega), if_neg (by simp [ha])]

theorem validateSaleItems_none_of (db : DB) (items : List SaleItemInput)
    (h : ∀ i ∈ items, validateSaleItem db i = none) :
    validateSaleItems db items = none := by
  induction items with
  | nil => rfl
  | cons i rest ih =>
    show (match validateSaleItem db i with
      | some e => some e
      | none => validateSaleItems db rest) = none
    rw [h i (List.mem_cons_self i rest)]
    exact ih (fun j hj => h j (List.mem_cons_of_mem i hj))

/-- C1: a sale whose every line references an existing, active product
with sufficient stock succeeds and persists exactly N SaleItems and N
StockMovements for N lines; each SaleItem captures the requested unit
price and total_price = quantity × unit_price; each movement is an out
movement with quantity the negative of the sold quantity, reference_id
the sale's id and a note naming the transaction id; and every product's
stock drops by exactly the total quantity sold for it. -/
theorem createSale_success_effects (db : DB) (input : CreateSaleInput) (u : User)
    (hu : db.findUser input.cashier_id = some u)
    (hlines : ∀ item ∈ input.items, ∃ p, db.findProduct item.product_id = some p ∧
      p.is_active = true ∧ item.quantity ≤ p.current_stock) :
    ∃ db' sale, createSale db input = .ok (db', sale) ∧
      db'.sale_items = db.sale_items ++
        saleItemsFor sale.id db.next_sale_item_id input.items ∧
      (saleItemsFor sale.id db.next_sale_item_id input.items).length =
        input.items.length ∧
      List.Forall₂ (fun (i : SaleItemInput) (si : SaleItem) =>
        si.sale_id = sale.id ∧ si.product_id = i.product_id ∧
        si.quantity = i.quantity ∧ si.unit_price = i.unit_price ∧
        si.total_price = (i.quantity : ℚ) * i.unit_price)
        input.items (saleItemsFor sale.id db.next_sale_item_id input.items) ∧
      db'.stock_movements = db.stock_movements ++
        movementsFor sale.id sale.transaction_id input.cashier_id
          db.next_movement_id db.now input.items ∧
      (movementsFor sale.id sale.transaction_id input.cashier_id
        db.next_movement_id db.now input.items).length = input.items.length ∧
      List.Forall₂ (fun (i : SaleItemInput) (m : StockMovement) =>
        m.product_id = i.product_id ∧ m.movement_type = .mvOut ∧
        m.quantity = - i.quantity ∧ m.reference_id = some sale.id ∧
        m.notes = some ("Sale transaction " ++ sale.transaction_id) ∧
        m.created_by = input.cashier_id)
        input.items (movementsFor sale.id sale.transaction_id input.cashier_id
          db.next_movement_id db.now input.items) ∧
      (∀ pid, db'.findProduct pid = (db.findProduct pid).map fun p =>
        { p with current_stock := p.current_stock - soldQty input.items pid }) := by
  have hv : validateSaleItems db input.items = none :=
    validateSaleItems_none_of db input.items
      (fun i hi => validateSaleItem_none_of db i (hlines i hi))
  exact ⟨saleResultDB db input, saleRecord db input,
    createSale_ok_eq db input u hu hv,
    saleResultDB_sale_items db input,
    saleItemsFor_length db.next_sale_id input.items db.next_sale_item_id,
    saleItemsFor_spec db.next_sale_id input.items db.next_sale_item_id,
    saleResultDB_stock_movements db input,
    movementsFor_length db.next_sale_id ("TXN-" ++ toString db.now)
      input.cashier_id db.now input.items db.next_movement_id,
    movementsFor_spec db.next_sale_id ("TXN-" ++ toString db.now)
      input.cashier_id db.now input.items db.next_movement_id,
    saleResultDB_findProduct db input⟩

/-- C1 witness: a two-line sale on the fixture catalog (5 of product 1
at 10 and 3 of product 2 at 20), all hypotheses discharged. -/
theorem createSale_success_effects_witness :
    ∃ db' sale, createSale baseDB twoLineSale = .ok (db', sale) ∧
      db'.sale_items = baseDB.sale_items ++
        saleItemsFor sale.id baseDB.next_sale_item_id twoLineSale.items ∧
      (saleItemsFor sale.id baseDB.next_sale_item_id twoLineSale.items).length =
        twoLineSale.items.length ∧
      List.Forall₂ (fun (i : SaleItemInput) (si : SaleItem) =>
        si.sale_id = sale.id ∧ si.product_id = i.product_id ∧
        si.quantity = i.quantity ∧ si.unit_price = i.unit_price ∧
        si.total_price = (i.quantity : ℚ) * i.unit_price)
        twoLineSale.items (saleItemsFor sale.id baseDB.next_sale_item_id twoLineSale.items) ∧
      db'.stock_movements = baseDB.stock_movements ++
        movementsFor sale.id sale.transaction_id twoLineSale.cashier_id
          baseDB.next_movement_id baseDB.now twoLineSale.items ∧
      (movementsFor sale.id sale.transaction_id twoLineSale.cashier_id
        baseDB.next_movement_id baseDB.now twoLineSale.items).length =
        twoLineSale.items.length ∧
      List.Forall₂ (fun (i : SaleItemInput) (m : StockMovement) =>
        m.product_id = i.product_id ∧ m.movement_type = .mvOut ∧
        m.quantity = - i.quantity ∧ m.reference_id = some sale.id ∧
        m.notes = some ("Sale transaction " ++ sale.transaction_id) ∧
        m.created_by = twoLineSale.cashier_id)
        twoLineSale.items (movementsFor sale.id sale.transaction_id
          twoLineSale.cashier_id baseDB.next_movement_id baseDB.now twoLineSale.items) ∧
      (∀ pid, db'.findProduct pid = (baseDB.findProduct pid).map fun p =>
        { p with current_stock := p.current_stock - soldQty twoLineSale.items pid }) :=
  createSale_success_effects baseDB twoLineSale user1 rfl (by
    intro item h
    cases h with
    | head => exact ⟨prodA, rfl, rfl, by decide⟩
    | tail _ h2 =>
      cases h2 with
      | head => exact ⟨prodB, rfl, rfl, by decide⟩
      | tail _ h3 => cases h3)

theorem saleTotalAmount_eq_sum (items : List SaleItemInput) :
    saleTotalAmount items =
      (items.map fun i => (i.quantity : ℚ) * i.unit_price).sum := by
  have key : ∀ (l : List SaleItemInput) (a : ℚ),
      l.foldl (fun s i => s + (i.quantity : ℚ) * i.unit_price) a =
        a + (l.map fun i => (i.quantity : ℚ) * i.unit_price).sum := by
    intro l
    induction l with
    | nil => intro a; simp
    | cons i rest ih => intro a; simp [ih, add_assoc]
  simpa [saleTotalAmount] using key items 0

theorem sum_cents : ∀ l : List ℚ, (∀ x ∈ l, ∃ c : ℤ, x * 100 = (c : ℚ)) →
    ∃ n : ℤ, l.sum * 100 = (n : ℚ)
  | [], _ => ⟨0, by simp⟩
  | x :: rest, h => by
    obtain ⟨c, hc⟩ := h x (List.mem_cons_self x rest)
    obtain ⟨n, hn⟩ := sum_cents rest (fun y hy => h y (List.mem_cons_of_mem x hy))
    refine ⟨c + n, ?_⟩
    rw [List.sum_cons, add_mul, hc, hn]
    push_cast
    ring

/-- C6: a valid sale's total_amount is the exact sum of
quantity × unit_price over the lines (an integer number of cents
whenever every unit price is), change_given = max(0, received − total),
and a payment below the total is accepted with change_given = 0. -/
theorem createSale_money (db : DB) (input : CreateSaleInput) (u : User)
    (hu : db.findUser input.cashier_id = some u)
    (hlines : ∀ item ∈ input.items, ∃ p, db.findProduct item.product_id = some p ∧
      p.is_active = true ∧ item.quantity ≤ p.current_stock) :
    ∃ db' sale, createSale db input = .ok (db', sale) ∧
      sale.total_amount =
        (input.items.map fun i => (i.quantity : ℚ) * i.unit_price).sum ∧
      sale.change_given = max 0 (input.payment_received - sale.total_amount) ∧
      (input.payment_received < sale.total_amount → sale.change_given = 0) ∧
      ((∀ i ∈ input.items, ∃ c : ℤ, i.unit_price * 100 = (c : ℚ)) →
        ∃ n : ℤ, sale.total_amount * 100 = (n : ℚ)) := by
  have hv : validateSaleItems db input.items = none :=
    validateSaleItems_none_of db input.items
      (fun i hi => validateSaleItem_none_of db i (hlines i hi))
  refine ⟨_, _, createSale_ok_eq db input u hu hv,
    saleTotalAmount_eq_sum input.items, rfl, ?_, ?_⟩
  · intro hlt
    have hlt2 : input.payment_received < saleTotalAmount input.items := hlt
    show max 0 (input.payment_received - saleTotalAmount input.items) = 0
    exact max_eq_left (by linarith)
  · intro hcents
    show ∃ n : ℤ, saleTotalAmount input.items * 100 = (n : ℚ)
    rw [saleTotalAmount_eq_sum]
    apply sum_cents
    intro x hx
    obtain ⟨i, hi, hfx⟩ := List.mem_map.mp hx
    obtain ⟨c, hc⟩ := hcents i hi
    refine ⟨i.quantity * c, ?_⟩
    rw [← hfx, mul_assoc, hc]
    push_cast
    ring

/-- C6 witness: a single-line sale of 2 × 10.00 paid with 9.00 — an
underpayment — is accepted with total 20 and change 0. -/
theorem createSale_money_witness :
    ∃ db' sale, createSale baseDB underpaySale = .ok (db', sale) ∧
      sale.total_amount =
        (underpaySale.items.map fun i => (i.quantity : ℚ) * i.unit_price).sum ∧
      sale.change_given = max 0 (underpaySale.payment_received - sale.total_amount) ∧
      (underpaySale.payment_received < sale.total_amount → sale.change_given = 0) ∧
      ((∀ i ∈ underpaySale.items, ∃ c : ℤ, i.unit_price * 100 = (c : ℚ)) →
        ∃ n : ℤ, sale.total_amount * 100 = (n : ℚ)) :=
  createSale_money baseDB underpaySale user1 rfl (by
    intro item h
    cases h with
    | head => exact ⟨prodA, rfl, rfl, by decide⟩
    | tail _ h2 => cases h2)

theorem validateSaleItem_some_spec (db : DB) (item : SaleItemInput) (e : PosError)
    (h : validateSaleItem db item = some e) :
    (e = .productNotFound item.product_id ∧
      db.findProduct item.product_id = none) ∨
    (∃ p, db.findProduct item.product_id = some p ∧
      e = .insufficientStock item.product_id p.current_stock item.quantity ∧
      p.current_stock < item.quantity) ∨
    (∃ p, db.findProduct item.product_id = some p ∧
      e = .productNotActive item.product_id ∧ p.is_active = false) := by
  unfold validateSaleItem at h
  cases hf : db.findProduct item.product_id with
  | none =>
    rw [hf] at h
    exact Or.inl ⟨(Option.some.inj h).symm, rfl⟩
  | some p =>
    rw [hf] at h
    have h2 : (if p.current_stock < item.quantity then
        some (PosError.insufficientStock item.product_id p.current_stock item.quantity)
      else if !p.is_active then
        some (PosError.productNotActive item.product_id)
      else none) = some e := h
    by_cases h1 : p.current_stock < item.quantity
    · rw [if_pos h1] at h2
      exact Or.inr (Or.inl ⟨p, rfl, (Option.some.inj h2).symm, h1⟩)
    · rw [if_neg h1] at h2
      by_cases ha : (!p.is_active) = true
      · rw [if_pos ha] at h2
        exact Or.inr (Or.inr ⟨p, rfl, (Option.some.inj h2).symm, by simpa using ha⟩)
      · rw [if_neg ha] at h2
        exact Option.noConfusion h2

theorem validateSaleItem_some_of_defective (db : DB) (item : SaleItemInput)
    (h : LineDefective db item) : ∃ e, validateSaleItem db item = some e := by
  rcases h with h | ⟨p, hp, hd⟩
  · exact ⟨.productNotFound item.product_id, by simp [validateSaleItem, h]⟩
  · have hbody : validateSaleItem db item = (if p.current_stock < item.quantity then
        some (PosError.insufficientStock item.product_id p.current_stock item.quantity)
      else if !p.is_active then
        some (PosError.productNotActive item.product_id)
      else none) := by
      unfold validateSaleItem
      rw [hp]
    by_cases h1 : p.current_stock < item.quantity
    · exact ⟨_, by rw [hbody, if_pos h1]⟩
    · rcases hd with ha | hq
      · exact ⟨_, by rw [hbody, if_neg h1, if_pos (by simp [ha])]⟩
      · exact absurd hq h1

theorem validateSaleItems_some_of_defective (db : DB) (items : List SaleItemInput)
    (h : ∃ i ∈ items, LineDefective db i) :
    ∃ e, validateSaleItems db items = some e ∧
      ∃ i ∈ items, validateSaleItem db i = some e := by
  induction items with
  | nil =>
    obtain ⟨i, hi, _⟩ := h
    cases hi
  | cons j rest ih =>
    cases hj : validateSaleItem db j with
    | some e =>
      refine ⟨e, ?_, j, List.mem_cons_self j rest, hj⟩
      show (match validateSaleItem db j with
        | some e => some e
        | none => validateSaleItems db rest) = some e
      rw [hj]
    | none =>
      obtain ⟨i, hi, hd⟩ := h
      cases hi with
      | head =>
        obtain ⟨e, he⟩ := validateSaleItem_some_of_defective db j hd
        rw [hj] at he
        exact Option.noConfusion he
      | tail _ hrest =>
        obtain ⟨e, he, i', hi', he'⟩ := ih ⟨i, hrest, hd⟩
        refine ⟨e, ?_, i', List.mem_cons_of_mem j hi', he'⟩
        show (match validateSaleItem db j with
          | some e => some e
          | none => validateSaleItems db rest) = some e
        rw [hj]
        exact he

/-- C2: a sale request with an existing cashier and at least one
defective line (unknown product, inactive product, or quantity above
stock) fails with an error naming a defect actually present in the
request, and the committed state is unchanged: no Sale header, no
SaleItems, no StockMovements, no stock change. -/
theorem createSale_invalid_line_rejected (db : DB) (input : CreateSaleInput)
    (u : User) (hu : db.findUser input.cashier_id = some u)
    (hdef : ∃ item ∈ input.items, LineDefective db item) :
    ∃ e, createSale db input = .error e ∧
      SaleErrorMatches db input.items e ∧
      runSale db input = db := by
  obtain ⟨e, hv, i, hi, hei⟩ :=
    validateSaleItems_some_of_defective db input.items hdef
  have herr : createSale db input = .error e :=
    createSale_error_eq db input u e hu hv
  refine ⟨e, herr, ?_, by simp [runSale, herr]⟩
  rcases validateSaleItem_some_spec db i e hei with
    ⟨he, hn⟩ | ⟨p, hp, he, hlt⟩ | ⟨p, hp, he, ha⟩
  · subst he
    exact ⟨hn, i, hi, rfl⟩
  · subst he
    exact ⟨⟨p, hp, rfl⟩, hlt, i, hi, rfl, rfl⟩
  · subst he
    exact ⟨⟨p, hp, ha⟩, i, hi, rfl⟩

/-- C2 witness: a sale with one valid line and one line for an unknown
product id fails entirely on the fixture catalog. -/
theorem createSale_invalid_line_rejected_witness :
    ∃ e, createSale baseDB
        { cashier_id := 1, payment_method := .cash, payment_received := 100,
          items := [⟨1, 5, 10⟩, ⟨42, 1, 10⟩] } = .error e ∧
      SaleErrorMatches baseDB [⟨1, 5, 10⟩, ⟨42, 1, 10⟩] e ∧
      runSale baseDB
        { cashier_id := 1, payment_method := .cash, payment_received := 100,
          items := [⟨1, 5, 10⟩, ⟨42, 1, 10⟩] } = baseDB :=
  createSale_invalid_line_rejected baseDB
    { cashier_id := 1, payment_method := .cash, payment_received := 100,
      items := [⟨1, 5, 10⟩, ⟨42, 1, 10⟩] } user1 rfl
    ⟨⟨42, 1, 10⟩, List.mem_cons_of_mem _ (List.mem_cons_self _ _), Or.inl rfl⟩

theorem soldQty_eq_zero (items : List SaleItemInput) (qid : Nat)
    (h : ∀ i ∈ items, i.product_id ≠ qid) : soldQty items qid = 0 := by
  unfold soldQty
  rw [List.filter_eq_nil_iff.mpr (by intro a ha; simp [h a ha])]
  rfl

/-- C10: every stock-changing operation is frame-bounded.  A direct
movement appends exactly its one row (prior movements kept as a prefix),
leaves users, sales and sale items alone, leaves every other product
untouched, and changes only the affected product's current_stock and
updated_at.  Each sale appends its movements after the existing ones,
leaves users alone, rewrites every product only in its current_stock
(decremented by the quantity sold), and leaves products absent from the
lines entirely untouched. -/
theorem stockOps_frame (db : DB) :
    (∀ (input : CreateStockMovementInput) (db' : DB) (m : StockMovement),
      createStockMovement db input = .ok (db', m) →
      db'.stock_movements = db.stock_movements ++ [m] ∧
      db'.users = db.users ∧ db'.sales = db.sales ∧
      db'.sale_items = db.sale_items ∧
      (∀ qid, qid ≠ input.product_id → db'.findProduct qid = db.findProduct qid) ∧
      (∀ p, db.findProduct input.product_id = some p →
        ∃ s, db'.findProduct input.product_id =
          some { p with current_stock := s, updated_at := db.now })) ∧
    (∀ (input : CreateSaleInput) (db' : DB) (sale : Sale),
      createSale db input = .ok (db', sale) →
      (∃ newMovs, db'.stock_movements = db.stock_movements ++ newMovs) ∧
      db'.users = db.users ∧
      (∀ qid p, db.findProduct qid = some p →
        db'.findProduct qid =
          some { p with current_stock := p.current_stock - soldQty input.items qid }) ∧
      (∀ qid, (∀ i ∈ input.items, i.product_id ≠ qid) →
        db'.findProduct qid = db.findProduct qid)) := by
  constructor
  · intro input db' m hok
    obtain ⟨ns, hdb, hm, product, hf⟩ := createStockMovement_ok_inv db input db' m hok
    subst hdb
    subst hm
    refine ⟨rfl, rfl, rfl, rfl, ?_, ?_⟩
    · intro qid hne
      exact findProduct_stockMovementResultDB_ne db input ns qid
        (fun hc => hne hc.symm)
    · intro p hp
      exact ⟨ns, findProduct_stockMovementResultDB_self db input ns p hp⟩
  · intro input db' sale hok
    obtain ⟨hdb, hsale⟩ := createSale_ok_inv db input db' sale hok
    subst hdb
    subst hsale
    refine ⟨⟨_, saleResultDB_stock_movements db input⟩,
      saleResultDB_users db input, ?_, ?_⟩
    · intro qid p hp
      rw [saleResultDB_findProduct db input qid, hp]
      rfl
    · intro qid hn
      rw [saleResultDB_findProduct db input qid,
        soldQty_eq_zero input.items qid hn]
      cases db.findProduct qid with
      | none => rfl
      | some p => simp

/-- C10 witness: an in movement of 50 on product 1 and the two-line
fixture sale, both with their frame conditions instantiated. -/
theorem stockOps_frame_witness :
    ((runStockMovement baseDB ⟨1, .mvIn, 50, none, 1⟩).stock_movements =
        baseDB.stock_movements ++ [stockMovementRecord baseDB ⟨1, .mvIn, 50, none, 1⟩] ∧
      (runStockMovement baseDB ⟨1, .mvIn, 50, none, 1⟩).users = baseDB.users ∧
      (runStockMovement baseDB ⟨1, .mvIn, 50, none, 1⟩).sales = baseDB.sales ∧
      (runStockMovement baseDB ⟨1, .mvIn, 50, none, 1⟩).sale_items = baseDB.sale_items ∧
      (∀ qid, qid ≠ 1 →
        (runStockMovement baseDB ⟨1, .mvIn, 50, none, 1⟩).findProduct qid =
          baseDB.findProduct qid) ∧
      (∀ p, baseDB.findProduct 1 = some p →
        ∃ s, (runStockMovement baseDB ⟨1, .mvIn, 50, none, 1⟩).findProduct 1 =
          some { p with current_stock := s, updated_at := baseDB.now })) ∧
    ((∃ newMovs, (runSale baseDB twoLineSale).stock_movements =
        baseDB.stock_movements ++ newMovs) ∧
      (runSale baseDB twoLineSale).users = baseDB.users ∧
      (∀ qid p, baseDB.findProduct qid = some p →
        (runSale baseDB twoLineSale).findProduct qid =
          some { p with current_stock :=
            p.current_stock - soldQty twoLineSale.items qid }) ∧
      (∀ qid, (∀ i ∈ twoLineSale.items, i.product_id ≠ qid) →
        (runSale baseDB twoLineSale).findProduct qid = baseDB.findProduct qid)) :=
  ⟨(stockOps_frame baseDB).1 ⟨1, .mvIn, 50, none, 1⟩
      (runStockMovement baseDB ⟨1, .mvIn, 50, none, 1⟩)
      (stockMovementRecord baseDB ⟨1, .mvIn, 50, none, 1⟩) rfl,
   (stockOps_frame baseDB).2 twoLineSale (runSale baseDB twoLineSale)
      (saleRecord baseDB twoLineSale) rfl⟩

/-! Ledger replay lemmas. -/

theorem filter_push (l : List StockMovement) (m : StockMovement) (pid : Nat) :
    (l ++ [m]).filter (fun x => x.product_id == pid) =
      l.filter (fun x => x.product_id == pid) ++
        (if m.product_id == pid then [m] else []) := by
  rw [List.filter_append]
  congr 1
  by_cases hc : (m.product_id == pid) = true <;> simp [hc]

theorem replayStock_append (s : Int) (l₁ l₂ : List StockMovement) :
    replayStock s (l₁ ++ l₂) = replayStock (replayStock s l₁) l₂ := by
  simp [replayStock, List.foldl_append]

/-! Structure of the createProduct result. -/

theorem createProduct_snd (db : DB) (input : CreateProductInput) :
    (createProduct db input).2 =
      { id := db.next_product_id
        name := input.name
        sku := input.sku
        barcode := input.barcode
        category_id := input.category_id
        selling_price := input.selling_price
        cost_price := input.cost_price
        current_stock := input.initial_stock
        min_stock_level := input.min_stock_level
        is_active := true
        created_at := db.now
        updated_at := db.now } := rfl

theorem createProduct_fst_products (db : DB) (input : CreateProductInput) :
    (createProduct db input).1.products = db.products ++ [(createProduct db input).2] := by
  by_cases h : input.initial_stock > 0 <;> simp [createProduct, h]

theorem createProduct_fst_next_product_id (db : DB) (input : CreateProductInput) :
    (createProduct db input).1.next_product_id = db.next_product_id + 1 := by
  by_cases h : input.initial_stock > 0 <;> simp [createProduct, h]

theorem createProduct_fst_movements_pos (db : DB) (input : CreateProductInput)
    (hpos : 0 < input.initial_stock) :
    (createProduct db input).1.stock_movements = db.stock_movements ++
      [{ id := db.next_movement_id
         product_id := db.next_product_id
         movement_type := .mvIn
         quantity := input.initial_stock
         reference_id := none
         notes := some "Initial stock"
         created_by := 1
         created_at := db.now }] := by
  simp [createProduct, hpos]

theorem createProduct_fst_movements_nonpos (db : DB) (input : CreateProductInput)
    (h : ¬ 0 < input.initial_stock) :
    (createProduct db input).1.stock_movements = db.stock_movements := by
  simp [createProduct, h]

theorem coreInv_createProduct (db : DB) (input : CreateProductInput)
    (hInv : CoreInv db) (h0 : 0 ≤ input.initial_stock) :
    CoreInv (createProduct db input).1 := by
  obtain ⟨⟨hpb, hmb⟩, hsc⟩ := hInv
  have hnewid : (createProduct db input).2.id = db.next_product_id := rfl
  have hmovnil : db.stock_movements.filter
      (fun x => x.product_id == db.next_product_id) = [] := by
    rw [List.filter_eq_nil_iff]
    intro m hm
    have := hmb m hm
    simp
    omega
  refine ⟨⟨?_, ?_⟩, ?_⟩
  · intro p hp
    rw [createProduct_fst_products] at hp
    rw [createProduct_fst_next_product_id]
    rcases List.mem_append.mp hp with hp | hp
    · have := hpb p hp; omega
    · rw [List.mem_singleton.mp hp, hnewid]; omega
  · intro m hm
    rw [createProduct_fst_next_product_id]
    by_cases hpos : 0 < input.initial_stock
    · rw [createProduct_fst_movements_pos db input hpos] at hm
      rcases List.mem_append.mp hm with hm | hm
      · have := hmb m hm; omega
      · rw [List.mem_singleton.mp hm]
        show db.next_product_id < db.next_product_id + 1
        omega
    · rw [createProduct_fst_movements_nonpos db input hpos] at hm
      have := hmb m hm; omega
  · intro p hp
    rw [createProduct_fst_products] at hp
    rcases List.mem_append.mp hp with hp | hp
    · -- pre-existing product: its ledger is untouched
      have hlt : p.id < db.next_product_id := hpb p hp
      have hfilter : movementsOf (createProduct db input).1 p.id = movementsOf db p.id := by
        unfold movementsOf
        by_cases hpos : 0 < input.initial_stock
        · rw [createProduct_fst_movements_pos db input hpos, filter_push]
          rw [if_neg (by simp; omega)]
          simp
        · rw [createProduct_fst_movements_nonpos db input hpos]
      rw [hfilter]
      exact hsc p hp
    · -- the new product: ledger is empty, or the single initial movement
      rw [List.mem_singleton.mp hp]
      rw [createProduct_snd]
      show input.initial_stock = replayStock 0 (movementsOf (createProduct db input).1
        db.next_product_id)
      unfold movementsOf
      by_cases hpos : 0 < input.initial_stock
      · rw [createProduct_fst_movements_pos db input hpos, filter_push, hmovnil,
          if_pos (by simp)]
        show input.initial_stock = 0 + input.initial_stock
        omega
      · rw [createProduct_fst_movements_nonpos db input hpos, hmovnil]
        show input.initial_stock = 0
        omega

theorem createStockMovement_ok_cases (db : DB) (input : CreateStockMovementInput)
    (db' : DB) (m : StockMovement)
    (h : createStockMovement db input = .ok (db', m)) :
    ∃ product, db.findProduct input.product_id = some product ∧
      m = stockMovementRecord db input ∧
      ((input.movement_type = .mvIn ∧
        db' = stockMovementResultDB db input
          (product.current_stock + input.quantity)) ∨
       (input.movement_type = .mvOut ∧
        db' = stockMovementResultDB db input
          (product.current_stock - input.quantity)) ∨
       (input.movement_type = .adjustment ∧
        db' = stockMovementResultDB db input input.quantity)) := by
  unfold createStockMovement at h
  cases hf : db.findProduct input.product_id with
  | none => rw [hf] at h; exact Except.noConfusion h
  | some product =>
    rw [hf] at h
    cases ht : input.movement_type with
    | mvIn =>
      rw [ht] at h
      have h3 := Except.ok.inj h
      exact ⟨product, rfl, (congrArg Prod.snd h3).symm,
        Or.inl ⟨rfl, (congrArg Prod.fst h3).symm⟩⟩
    | mvOut =>
      rw [ht] at h
      have h2 : (match (if product.current_stock - input.quantity < 0 then
            (Except.error (PosError.insufficientStock input.product_id
              product.current_stock input.quantity) : Except PosError Int)
          else .ok (product.current_stock - input.quantity)) with
        | .error e => (Except.error e : Except PosError (DB × StockMovement))
        | .ok newStock =>
            .ok (stockMovementResultDB db input newStock,
              stockMovementRecord db input)) = .ok (db', m) := h
      by_cases hc : product.current_stock - input.quantity < 0
      · rw [if_pos hc] at h2; exact Except.noConfusion h2
      · rw [if_neg hc] at h2
        have h3 := Except.ok.inj h2
        exact ⟨product, rfl, (congrArg Prod.snd h3).symm,
          Or.inr (Or.inl ⟨rfl, (congrArg Prod.fst h3).symm⟩)⟩
    | adjustment =>
      rw [ht] at h
      have h3 := Except.ok.inj h
      exact ⟨product, rfl, (congrArg Prod.snd h3).symm,
        Or.inr (Or.inr ⟨rfl, (congrArg Prod.fst h3).symm⟩)⟩

theorem coreInv_stockMovementResultDB (db : DB) (input : CreateStockMovementInput)
    (product : Product) (ns : Int) (hInv : CoreInv db)
    (hf : db.findProduct input.product_id = some product)
    (hns : ns = replayStep product.current_stock (stockMovementRecord db input)) :
    CoreInv (stockMovementResultDB db input ns) := by
  obtain ⟨⟨hpb, hmb⟩, hsc⟩ := hInv
  have hf' : db.products.find? (fun q => q.id == input.product_id) = some product := hf
  have hprodmem : product ∈ db.products := List.mem_of_find?_eq_some hf'
  have hprodid := List.find?_some hf'
  have hpid : product.id = input.product_id := by simpa using hprodid
  refine ⟨⟨?_, ?_⟩, ?_⟩
  · intro p hp
    have hp' : p ∈ db.products.map (fun q =>
        if q.id == input.product_id then
          { q with current_stock := ns, updated_at := db.now }
        else q) := hp
    obtain ⟨p0, hp0, heq⟩ := List.mem_map.mp hp'
    have hid : (if p0.id == input.product_id then
        { p0 with current_stock := ns, updated_at := db.now }
      else p0).id = p0.id := by
      by_cases hc : (p0.id == input.product_id) = true <;> simp [hc]
    show p.id < db.next_product_id
    rw [← heq, hid]
    exact hpb p0 hp0
  · intro m hm
    have hm' : m ∈ db.stock_movements ++ [stockMovementRecord db input] := hm
    rcases List.mem_append.mp hm' with h | h
    · exact hmb m h
    · rw [List.mem_singleton.mp h]
      show input.product_id < db.next_product_id
      rw [← hpid]
      exact hpb product hprodmem
  · intro p hp
    have hp' : p ∈ db.products.map (fun q =>
        if q.id == input.product_id then
          { q with current_stock := ns, updated_at := db.now }
        else q) := hp
    obtain ⟨p0, hp0, heq⟩ := List.mem_map.mp hp'
    by_cases hc : (p0.id == input.product_id) = true
    · have hpe : p0.id = input.product_id := by simpa using hc
      have hpeq : p = { p0 with current_stock := ns, updated_at := db.now } := by
        rw [← heq, if_pos hc]
      have hpid2 : p.id = p0.id := by rw [hpeq]
      have hledger : movementsOf (stockMovementResultDB db input ns) p.id =
          movementsOf db input.product_id ++ [stockMovementRecord db input] := by
        show (db.stock_movements ++ [stockMovementRecord db input]).filter
          (fun x => x.product_id == p.id) = _
        rw [filter_push, hpid2, hpe, if_pos (by simp [stockMovementRecord])]
        rfl
      have hrep : replayStock 0 (movementsOf db input.product_id) =
          product.current_stock := by
        have h2 := hsc product hprodmem
        rw [hpid] at h2
        exact h2.symm
      rw [hledger, replayStock_append, hrep, hpeq]
      show ns = replayStock product.current_stock [stockMovementRecord db input]
      rw [hns]
      rfl
    · have hpeq : p = p0 := by rw [← heq, if_neg hc]
      have hne : input.product_id ≠ p.id := by
        rw [hpeq]
        intro hcc
        exact (by simpa using hc : p0.id ≠ input.product_id) hcc.symm
      have hledger : movementsOf (stockMovementResultDB db input ns) p.id =
          movementsOf db p.id := by
        show (db.stock_movements ++ [stockMovementRecord db input]).filter
          (fun x => x.product_id == p.id) = _
        rw [filter_push, if_neg (by simpa [stockMovementRecord] using hne),
          List.append_nil]
        rfl
      rw [hledger, hpeq]
      exact hsc p0 hp0

theorem coreInv_createStockMovement (db : DB) (input : CreateStockMovementInput)
    (db' : DB) (m : StockMovement) (hInv : CoreInv db)
    (hvalid : ValidStockMovementInput input)
    (h : createStockMovement db input = .ok (db', m)) : CoreInv db' := by
  obtain ⟨product, hf, hm, hcases⟩ := createStockMovement_ok_cases db input db' m h
  rcases hcases with ⟨ht, hdb⟩ | ⟨ht, hdb⟩ | ⟨ht, hdb⟩ <;> subst hdb
  · exact coreInv_stockMovementResultDB db input product _ hInv hf
      (by simp [replayStep, stockMovementRecord, ht])
  · have hq : 0 < input.quantity := by
      unfold ValidStockMovementInput at hvalid
      rw [ht] at hvalid
      exact hvalid
    exact coreInv_stockMovementResultDB db input product _ hInv hf
      (by simp [replayStep, stockMovementRecord, ht, Int.natAbs_of_nonneg hq.le])
  · exact coreInv_stockMovementResultDB db input product _ hInv hf
      (by simp [replayStep, stockMovementRecord, ht])

theorem coreInv_processSaleItem (sid : Nat) (tx : String) (cid : Nat) (db : DB)
    (i : SaleItemInput) (hInv : CoreInv db) (hq : 0 ≤ i.quantity)
    (hpid : i.product_id < db.next_product_id) :
    CoreInv (processSaleItem sid tx cid db i) := by
  obtain ⟨⟨hpb, hmb⟩, hsc⟩ := hInv
  refine ⟨⟨?_, ?_⟩, ?_⟩
  · intro p hp
    have hp' : p ∈ db.products.map (fun q =>
        if q.id == i.product_id then
          { q with current_stock := q.current_stock - i.quantity }
        else q) := hp
    obtain ⟨p0, hp0, heq⟩ := List.mem_map.mp hp'
    have hid : (if p0.id == i.product_id then
        { p0 with current_stock := p0.current_stock - i.quantity }
      else p0).id = p0.id := by
      by_cases hc : (p0.id == i.product_id) = true <;> simp [hc]
    show p.id < db.next_product_id
    rw [← heq, hid]
    exact hpb p0 hp0
  · intro m hm
    have hm' : m ∈ db.stock_movements ++ [saleMovementRecord sid tx cid db i] := hm
    rcases List.mem_append.mp hm' with h | h
    · exact hmb m h
    · rw [List.mem_singleton.mp h]
      show i.product_id < db.next_product_id
      exact hpid
  · intro p hp
    have hp' : p ∈ db.products.map (fun q =>
        if q.id == i.product_id then
          { q with current_stock := q.current_stock - i.quantity }
        else q) := hp
    obtain ⟨p0, hp0, heq⟩ := List.mem_map.mp hp'
    by_cases hc : (p0.id == i.product_id) = true
    · have hpe : p0.id = i.product_id := by simpa using hc
      have hpeq : p = { p0 with current_stock := p0.current_stock - i.quantity } := by
        rw [← heq, if_pos hc]
      have hpid2 : p.id = p0.id := by rw [hpeq]
      have hledger : movementsOf (processSaleItem sid tx cid db i) p.id =
          movementsOf db p0.id ++ [saleMovementRecord sid tx cid db i] := by
        show (db.stock_movements ++ [saleMovementRecord sid tx cid db i]).filter
          (fun x => x.product_id == p.id) = _
        rw [filter_push, hpid2, if_pos (by simp [saleMovementRecord, hpe])]
        rfl
      rw [hledger, replayStock_append]
      have hrep : replayStock 0 (movementsOf db p0.id) = p0.current_stock :=
        (hsc p0 hp0).symm
      rw [hrep, hpeq]
      show p0.current_stock - i.quantity =
        p0.current_stock - (((- i.quantity).natAbs : Nat) : Int)
      rw [Int.natAbs_neg, Int.natAbs_of_nonneg hq]
    · have hpeq : p = p0 := by rw [← heq, if_neg hc]
      have hne : i.product_id ≠ p.id := by
        rw [hpeq]
        intro hcc
        exact (by simpa using hc : p0.id ≠ i.product_id) hcc.symm
      have hledger : movementsOf (processSaleItem sid tx cid db i) p.id =
          movementsOf db p.id := by
        show (db.stock_movements ++ [saleMovementRecord sid tx cid db i]).filter
          (fun x => x.product_id == p.id) = _
        rw [filter_push, if_neg (by simpa [saleMovementRecord] using hne),
          List.append_nil]
        rfl
      rw [hledger, hpeq]
      exact hsc p0 hp0

theorem coreInv_processSaleItems (sid : Nat) (tx : String) (cid : Nat) :
    ∀ (items : List SaleItemInput) (db : DB), CoreInv db →
      (∀ i ∈ items, 0 ≤ i.quantity ∧ i.product_id < db.next_product_id) →
      CoreInv (processSaleItems sid tx cid db items)
  | [], _, hInv, _ => hInv
  | i :: rest, db, hInv, hit => by
    have h1 := coreInv_processSaleItem sid tx cid db i hInv
      (hit i (List.mem_cons_self i rest)).1 (hit i (List.mem_cons_self i rest)).2
    exact coreInv_processSaleItems sid tx cid rest (processSaleItem sid tx cid db i)
      h1 (fun j hj => ⟨(hit j (List.mem_cons_of_mem i hj)).1,
        (hit j (List.mem_cons_of_mem i hj)).2⟩)

theorem createSale_ok_valid (db : DB) (input : CreateSaleInput) (db' : DB) (s : Sale)
    (h : createSale db input = .ok (db', s)) :
    validateSaleItems db input.items = none := by
  unfold createSale at h
  cases hu : db.findUser input.cashier_id with
  | none => rw [hu] at h; exact Except.noConfusion h
  | some u =>
    rw [hu] at h
    cases hv : validateSaleItems db input.items with
    | some e => rw [hv] at h; exact Except.noConfusion h
    | none => rfl

theorem validateSaleItems_none_forall (db : DB) :
    ∀ (items : List SaleItemInput), validateSaleItems db items = none →
      ∀ i ∈ items, validateSaleItem db i = none
  | [], _, i, hi => by cases hi
  | j :: rest, h, i, hi => by
    have h' : (match validateSaleItem db j with
      | some e => some e
      | none => validateSaleItems db rest) = none := h
    cases hj : validateSaleItem db j with
    | some e => rw [hj] at h'; exact Option.noConfusion h'
    | none =>
      rw [hj] at h'
      cases hi with
      | head => exact hj
      | tail _ hr => exact validateSaleItems_none_forall db rest h' i hr

theorem validateSaleItem_none_found (db : DB) (item : SaleItemInput)
    (h : validateSaleItem db item = none) :
    ∃ p, db.findProduct item.product_id = some p := by
  unfold validateSaleItem at h
  cases hf : db.findProduct item.product_id with
  | none => rw [hf] at h; exact Option.noConfusion h
  | some p => exact ⟨p, rfl⟩

theorem coreInv_createSale (db : DB) (input : CreateSaleInput) (db' : DB) (s : Sale)
    (hInv : CoreInv db) (hvalid : ValidSaleInput input)
    (h : createSale db input = .ok (db', s)) : CoreInv db' := by
  obtain ⟨hdb, -⟩ := createSale_ok_inv db input db' s h
  subst hdb
  have hv := createSale_ok_valid db input _ _ h
  have hforall := validateSaleItems_none_forall db input.items hv
  have hbound : ∀ i ∈ input.items, 0 ≤ i.quantity ∧
      i.product_id < db.next_product_id := by
    intro i hi
    obtain ⟨p, hp⟩ := validateSaleItem_none_found db i (hforall i hi)
    have hp' : db.products.find? (fun q => q.id == i.product_id) = some p := hp
    have hmem := List.mem_of_find?_eq_some hp'
    have hbeq := List.find?_some hp'
    have hpe : p.id = i.product_id := by simpa using hbeq
    exact ⟨(hvalid.2 i hi).1.le, by rw [← hpe]; exact hInv.1.1 p hmem⟩
  have hInv1 : CoreInv (saleHeaderDB db input) := hInv
  have h2 := coreInv_processSaleItems (saleRecord db input).id
    (saleRecord db input).transaction_id input.cashier_id input.items
    (saleHeaderDB db input) hInv1 hbound
  exact h2

theorem reachable_coreInv : ∀ {db : DB}, Reachable db → CoreInv db := by
  intro db h
  induction h with
  | init users =>
    exact ⟨⟨fun p hp => absurd hp (List.not_mem_nil p),
      fun m hm => absurd hm (List.not_mem_nil m)⟩,
      fun p hp => absurd hp (List.not_mem_nil p)⟩
  | @product db0 db' input p hr h0 heq ih =>
    have hfst : db' = (createProduct db0 input).1 := by rw [heq]
    rw [hfst]
    exact coreInv_createProduct db0 input ih h0
  | @movement db0 db' input m hr hv heq ih =>
    exact coreInv_createStockMovement db0 input db' m ih hv heq
  | @sale db0 db' input s hr hv heq ih =>
    exact coreInv_createSale db0 input db' s ih hv heq

/-- C5 amended: in every state reachable by successful contract-valid
operations (product creation, direct stock movements, sales), each
product's current_stock equals the replay of its movement ledger — in
additions and out subtractions of the absolute stored quantity applied
on top of the most recent adjustment's absolute value (the replay
restarts at each adjustment record). -/
theorem reachable_stock_consistent (db : DB) (h : Reachable db) :
    ∀ p ∈ db.products, p.current_stock = replayStock 0 (movementsOf db p.id) :=
  (reachable_coreInv h).2

/-- C5 amended witness: the consistency equation instantiated on the
state reached by creating one product with 100 units of stock. -/
theorem reachable_stock_consistent_witness :
    (createProduct initDB prodInputA).2.current_stock =
      replayStock 0 (movementsOf dbP (createProduct initDB prodInputA).2.id) :=
  reachable_stock_consistent dbP
    (@Reachable.product initDB dbP prodInputA (createProduct initDB prodInputA).2
      (Reachable.init [user1]) (by decide) rfl)
    (createProduct initDB prodInputA).2 (by decide)

/-- C5 counterexample: contrary to the claim that no negative stock
value ever persists, a sale with two lines for the same product — each
individually covered by the pre-sale stock — commits, and the resulting
reachable state holds the product at stock −20. -/
theorem stock_nonnegativity_cex :
    Reachable (runSale dbP dupSaleInput) ∧
    ((runSale dbP dupSaleInput).findProduct 1).map Product.current_stock =
      some (-20) :=
  ⟨@Reachable.sale dbP (runSale dbP dupSaleInput) dupSaleInput
      (saleRecord dbP dupSaleInput)
      (@Reachable.product initDB dbP prodInputA (createProduct initDB prodInputA).2
        (Reachable.init [user1]) (by decide) rfl)
      (by exact ⟨by decide, by decide⟩) rfl,
    by decide⟩
